import Mathlib

/-!
Verification of the go-errs error-introspection library.

This file gives a shallow embedding of the library's error-tree data model
(`Sentinel`, `withCallStack`, `withCallStackFuncParams`, `multiError`,
`errors.Join`-style multi-unwrap nodes, and user-defined error types with an
`As(any) bool` matcher method), of its traversal and combination algorithms
(`Root`, `as`/`As`, `Combine`, `Uncombine`), and of its formatting pipeline
(`formatError`, `FormatFunctionCall`, secret redaction), and proves or refutes
the specified properties.

Text is modeled as `List Char` (Go strings are byte sequences; we model them
as character sequences, which is faithful for every property considered here).
Go `nil` errors are modeled with `Option`.
-/

namespace GoErrs

/-- Text model: Go strings are modeled as lists of characters. -/
abbrev Str := List Char

/-- Convert a Lean string literal into the text model. -/
def str (s : String) : Str := s.data

/-- Model of a function-call parameter value (`any` in Go) as passed to
`FormatFunctionCall` / `WrapWithFuncParams`: a string, an integer, a value
wrapped by `KeepSecret` (src/secret.go), or a struct with nested fields. -/
inductive Param : Type where
  | str : Str → Param
  | int : Int → Param
  | secretV : Param → Param
  | strct : List Param → Param

/-- `KeepSecret` from src/secret.go: wraps the passed value in a `Secret`. -/
def KeepSecret (val : Param) : Param := Param.secretV val

/-- Model of the error-tree node shapes handled by the library:
* `sentinel` — `Sentinel` leaf errors (`Error()` returns the string);
* `withCallStack` — the bare call-stack wrapper (`Unwrap() error`,
  `CallStack()`), child is never nil (`WrapWithCallStackSkip` guards nil);
* `withCSParams` — `withCallStackFuncParams`: call stack plus parameters
  (`Unwrap() error`, `CallStack()`, `CallStackParams()`);
* `wrapped` — a plain message-prefix wrapper in the style of
  `fmt.Errorf("prefix: %w", err)` (`Unwrap() error`, no call stack);
* `multi` — the unexported `multiError []error` built by `Combine`
  (methods `Error`, `Errors`, `Is`, `As`; it has NO `Unwrap` method);
* `join` — an external `errors.Join`-style node exposing `Unwrap() []error`,
  whose children may be nil;
* `custom` — a user-defined error type identified by a numeric type tag,
  carrying a message and the list of type tags its `As(any) bool` method
  claims (empty list: no `As` method / `As` never succeeds). -/
inductive GoErr : Type where
  | sentinel : Str → GoErr
  | withCallStack : List Nat → GoErr → GoErr
  | withCSParams : List Nat → List Param → GoErr → GoErr
  | wrapped : Str → GoErr → GoErr
  | multi : List GoErr → GoErr
  | join : List (Option GoErr) → GoErr
  | custom : Nat → Str → List Nat → GoErr

/-- Dynamic (concrete) Go type of an error value; `err.(T)` succeeds exactly
when the tags agree. Each user-defined type gets its own `customT` tag. -/
inductive Tag : Type where
  | sentinelT
  | withCallStackT
  | withCSParamsT
  | wrappedT
  | multiT
  | joinT
  | customT : Nat → Tag
deriving DecidableEq

/-- The dynamic type tag of an error value. -/
def typeTag : GoErr → Tag
  | .sentinel _ => .sentinelT
  | .withCallStack _ _ => .withCallStackT
  | .withCSParams _ _ _ => .withCSParamsT
  | .wrapped _ _ => .wrappedT
  | .multi _ => .multiT
  | .join _ => .joinT
  | .custom n _ _ => .customT n

/-- `interface\x7b Unwrap() error \x7d`: single-child unwrap capability.
Present on the two call-stack wrappers and on `fmt.Errorf`-style wrappers;
absent on leaves, on `multiError` and on `errors.Join`-style nodes. -/
def goUnwrap1 : GoErr → Option GoErr
  | .withCallStack _ c => some c
  | .withCSParams _ _ c => some c
  | .wrapped _ c => some c
  | _ => none

/-- Join a list of texts with a separator between consecutive elements
(the `strings.Builder` loop pattern `if i > 0 \x7b write sep \x7d`). -/
def joinWith (sep : Str) : List Str → Str
  | [] => []
  | [s] => s
  | s :: rest => s ++ sep ++ joinWith sep rest

/-- The fixed redaction marker rendered for every secret
(src/secret.go, `PrettyPrint` writes this and nothing else). -/
def redactionMarker : Str := str "***REDACTED***"

/-- The truncation marker documented for `FormatParamMaxLen`
(src/config.go: oversized parameter renderings are to be suffixed with it). -/
def truncMarker : Str := str "…(TRUNCATED)"

/-- `FormatParamMaxLen` from src/config.go: the documented maximum length in
bytes for a single formatted parameter value (default 5000). -/
def FormatParamMaxLen : Nat := 5000

mutual

/-- Model of `Printer.Fprint` (the injectable go-pretty printer) on parameter
values. The one behavior fixed by this repository (src/secret.go and the
src/format.go doc comment) is that a value wrapped by `KeepSecret` renders via
its `PrettyPrint` method as the fixed redaction marker, at any nesting depth;
strings render quoted, integers decimally, structs field by field. -/
def PrinterFprint : Param → Str
  | .str s => '"' :: s ++ ['"']
  | .int n => (toString n).data
  | .secretV _ => redactionMarker
  | .strct fields => '\x7b' :: joinWith (str ", ") (PrinterFprintList fields) ++ ['\x7d']

/-- Renders each field of a struct parameter in order. -/
def PrinterFprintList : List Param → List Str
  | [] => []
  | p :: ps => PrinterFprint p :: PrinterFprintList ps

end

/-- `FormatFunctionCall` from src/format.go: renders
`function(param1, param2, …)`, formatting each parameter with the printer and
separating consecutive parameters with a comma
(`if i > 0 \x7b b.WriteString(", ") \x7d`). No truncation is performed. -/
def FormatFunctionCall (function : Str) (params : List Param) : Str :=
  function ++ '(' :: joinWith (str ", ") (PrinterFprintList params) ++ [')']

mutual

/-- Replace the payload of every `KeepSecret` wrapper, at any nesting depth,
by a fixed dummy value. Used to state that formatted output is independent of
secret payloads. -/
def scrubParam : Param → Param
  | .str s => .str s
  | .int n => .int n
  | .secretV _ => .secretV (.int 0)
  | .strct fields => .strct (scrubParamList fields)

/-- `scrubParam` mapped over struct fields. -/
def scrubParamList : List Param → List Param
  | [] => []
  | p :: ps => scrubParam p :: scrubParamList ps

end

mutual

/-- Whether a parameter value contains a `KeepSecret` wrapper anywhere. -/
def containsSecret : Param → Bool
  | .str _ => false
  | .int _ => false
  | .secretV _ => true
  | .strct fields => containsSecretList fields

/-- Whether any field contains a `KeepSecret` wrapper. -/
def containsSecretList : List Param → Bool
  | [] => false
  | p :: ps => containsSecret p || containsSecretList ps

end

/-- Model of lazy frame resolution: the function name resolved for a program
counter (`runtime.CallersFrames(stack).Next().Function`). -/
def frameFunction (pc : Nat) : Str := str "func" ++ (toString pc).data

/-- The file path resolved for a program counter. -/
def frameFile (pc : Nat) : Str := str "file" ++ (toString pc).data ++ str ".go"

/-- The line number resolved for a program counter. -/
def frameLine (pc : Nat) : Nat := pc

/-- `TrimFilePathPrefix` from src/config.go; modeled as the documented
fallback (empty when no `github.com` marker is found, e.g. `-trimpath`). -/
def TrimFilePathPrefix : Str := []

/-- `strings.TrimPrefix`. -/
def trimPrefixStr (s pre : Str) : Str :=
  if pre.isPrefixOf s then s.drop pre.length else s

/-- `runtime.CallersFrames(stack).Next()` resolves the first frame; an empty
stack yields the zero frame (empty function and file, line 0).
Returns `(function, file, line)`. -/
def firstFrame : List Nat → Str × Str × Nat
  | [] => ([], [], 0)
  | pc :: _ => (frameFunction pc, frameFile pc, frameLine pc)

/-- `formatCallStack` from src/format.go: first frame's function name, then a
newline, indentation, and `file:line` with the path prefix trimmed. -/
def formatCallStack (stack : List Nat) : Str :=
  (firstFrame stack).1 ++ str "\n    "
    ++ trimPrefixStr (firstFrame stack).2.1 TrimFilePathPrefix
    ++ [':'] ++ (toString (firstFrame stack).2.2).data

/-- `formatCallStackParams` from src/format.go: like `formatCallStack` but the
function name is rendered as a call with the captured parameters. -/
def formatCallStackParams (stack : List Nat) (params : List Param) : Str :=
  FormatFunctionCall (firstFrame stack).1 params ++ str "\n    "
    ++ trimPrefixStr (firstFrame stack).2.1 TrimFilePathPrefix
    ++ [':'] ++ (toString (firstFrame stack).2.2).data

/-- Each collected call text followed by a newline, in list order
(the output loop of `formatError` writes `calls[i]` then a newline). -/
def lineJoin : List Str → Str
  | [] => []
  | c :: rest => c ++ '\n' :: lineJoin rest

/-- Assembling `formatError`'s output: the first collected non-stack error's
text (or the `"no wrapped error found"` placeholder), a newline, then the
collected call texts in reverse collection order, each on its own line. -/
def assemble (first : Option Str) (calls : List Str) : Str :=
  (match first with
   | some s => s
   | none => str "no wrapped error found") ++ '\n' :: lineJoin calls.reverse

/-- `first` if already set, otherwise `some d`
(`if firstWithoutStack == nil \x7b firstWithoutStack = err \x7d`). -/
def keepFirst (first : Option Str) (d : Str) : Option Str :=
  match first with
  | some s => some s
  | none => some d

mutual

/-- The `Error()` method of each node type:
* `Sentinel.Error` returns the string itself;
* a custom error returns its message;
* a `fmt.Errorf`-style wrapper prefixes its child's text;
* `multiError.Error` (the repository's multi-error) joins the children's texts
  with the newline character;
* an `errors.Join`-style node joins its non-nil children's texts with newline;
* both call-stack wrappers delegate to `formatError` on themselves, which
  immediately records their call text and walks into the child. -/
def errorText : GoErr → Str
  | .sentinel m => m
  | .custom _ m _ => m
  | .wrapped pre c => pre ++ errorText c
  | .multi cs => joinWith ['\n'] (errorTextList cs)
  | .join cs => joinWith ['\n'] (errorTextOptList cs)
  | .withCallStack s c => fmtWalk c [formatCallStack s] none
  | .withCSParams s p c => fmtWalk c [formatCallStackParams s p] none

/-- `Error()` texts of a list of children, in order. -/
def errorTextList : List GoErr → List Str
  | [] => []
  | e :: es => errorText e :: errorTextList es

/-- `Error()` texts of a list of possibly-nil children, skipping nil. -/
def errorTextOptList : List (Option GoErr) → List Str
  | [] => []
  | none :: es => errorTextOptList es
  | some e :: es => errorText e :: errorTextOptList es

/-- The collection loop of `formatError` (src/format.go): walk the single
unwrap chain from the outermost node; a `callStackParamsProvider` contributes
`formatCallStackParams`, a bare `callStackProvider` contributes
`formatCallStack`, and the first node that is neither records its `Error()`
text; `errors.Unwrap` ends the loop at nodes without single unwrap. -/
def fmtWalk : GoErr → List Str → Option Str → Str
  | .withCSParams s p c, calls, first => fmtWalk c (calls ++ [formatCallStackParams s p]) first
  | .withCallStack s c, calls, first => fmtWalk c (calls ++ [formatCallStack s]) first
  | .wrapped pre c, calls, first => fmtWalk c calls (keepFirst first (pre ++ errorText c))
  | e, calls, first => assemble (keepFirst first (errorText e)) calls

end

/-- `formatError` from src/format.go, applied to an error node. -/
def formatError (err : GoErr) : Str := fmtWalk err [] none

mutual

/-- Standard-library `errors.As(err, &m)` specialized to the target type
`multiError` (also used for the `MultiError` interface target of `Uncombine`:
in this model only `multi` nodes implement `Errors() []error`, and the
`As(any) bool` methods of user-defined errors never claim the unexported
`multiError` type). It returns the children of the first multi-error found:
a direct type match, else the `As` walk through single unwrap and through the
non-nil children of `Unwrap() []error` nodes. -/
def findMulti : GoErr → Option (List GoErr)
  | .multi cs => some cs
  | .withCallStack _ c => findMulti c
  | .withCSParams _ _ c => findMulti c
  | .wrapped _ c => findMulti c
  | .join cs => findMultiList cs
  | .sentinel _ => none
  | .custom _ _ _ => none

/-- `errors.As` recursion over the children of an `Unwrap() []error` node:
first success wins, nil children are skipped. -/
def findMultiList : List (Option GoErr) → Option (List GoErr)
  | [] => none
  | none :: rest => findMultiList rest
  | some e :: rest =>
    match findMulti e with
    | some cs => some cs
    | none => findMultiList rest

end

/-- The contribution of one non-nil input to `Combine`'s list: if
`errors.As(err, &m)` finds a multi-error, its children are spliced in,
otherwise the input itself is appended. -/
def splice (e : GoErr) : List GoErr :=
  match findMulti e with
  | some cs => cs
  | none => [e]

/-- The collection loop of `Combine` (combine.go): for each input in order,
skip nil; if `errors.As` finds a multi-error, append its `Errors()`;
otherwise append the input itself (i.e. append the input's `splice`). -/
def combineList : List (Option GoErr) → List GoErr
  | [] => []
  | none :: rest => combineList rest
  | some err :: rest => splice err ++ combineList rest

/-- `Combine` (combine.go): collapse the collected list — empty to nil, a
single element to that element itself, two or more to a `multiError`. -/
def Combine (errs : List (Option GoErr)) : Option GoErr :=
  match combineList errs with
  | [] => none
  | [e] => some e
  | combined => some (.multi combined)

/-- `Uncombine` (combine.go): nil for nil; the `Errors()` of the multi-error
found by `errors.As(err, &multi)` if any; else a singleton list.
(The Go nil slice is modeled as the empty list.) -/
def Uncombine : Option GoErr → List GoErr
  | none => []
  | some err =>
    match findMulti err with
    | some cs => cs
    | none => [err]

/-- A well-formedness condition satisfied by every error whose multi-error
nodes were produced by `Combine` itself (the `multiError` type is unexported,
so clients cannot construct one directly): if `errors.As` finds a multi-error
inside `e`, then none of that multi-error's children contains a further
multi-error. -/
def flatFound (e : GoErr) : Bool :=
  match findMulti e with
  | none => true
  | some cs => cs.all fun c => (findMulti c).isNone

/-- The value a user-defined `As(any) bool` method stores into its `*T`
target slot when it claims type tag `t` (a canonical value of that type). -/
def populate : Tag → GoErr
  | .customT n => .custom n [] []
  | .sentinelT => .sentinel []
  | .withCallStackT => .withCallStack [] (.sentinel [])
  | .withCSParamsT => .withCSParams [] [] (.sentinel [])
  | .wrappedT => .wrapped [] (.sentinel [])
  | .multiT => .multi []
  | .joinT => .join []

mutual

/-- Standard-library `errors.As(err, target)` with a `*T` target for the
concrete type of tag `t`, returning the populated value on success: a direct
type match assigns `err` itself; else an `As(any) bool` method is consulted;
else the walk continues through single unwrap or the non-nil children of an
`Unwrap() []error` node. -/
def stdAs (t : Tag) (err : GoErr) : Option GoErr :=
  if typeTag err = t then some err
  else
    match asMethodTry t err with
    | some v => some v
    | none =>
      match err with
      | .withCallStack _ c => stdAs t c
      | .withCSParams _ _ c => stdAs t c
      | .wrapped _ c => stdAs t c
      | .join cs => stdAsList t cs
      | _ => none

/-- The `As(any) bool` matcher capability, invoked with a `*T` slot for type
tag `t`; `none` models both a missing `As` method and an `As` call returning
false. `multiError.As` (multierror.go) delegates to `errors.As` on each child
in order, first success wins; a user-defined error claims exactly the custom
type tags in its claim list, populating a canonical value. -/
def asMethodTry (t : Tag) : GoErr → Option GoErr
  | .multi cs => stdAsFirst t cs
  | .custom _ _ claims =>
    match t with
    | .customT m => if claims.contains m then some (populate (.customT m)) else none
    | _ => none
  | _ => none

/-- `multiError.As`: `errors.As(child, target)` on each child, first success. -/
def stdAsFirst (t : Tag) : List GoErr → Option GoErr
  | [] => none
  | c :: rest =>
    match stdAs t c with
    | some v => some v
    | none => stdAsFirst t rest

/-- `errors.As` over the children of an `Unwrap() []error` node,
skipping nil children, first success wins. -/
def stdAsList (t : Tag) : List (Option GoErr) → Option GoErr
  | [] => none
  | none :: rest => stdAsList t rest
  | some c :: rest =>
    match stdAs t c with
    | some v => some v
    | none => stdAsList t rest

end

/-- The zero-or-one elements one node's own checks append in the `as` loop of
src/iter.go: if the type assertion `err.(T)` holds, the node itself; ELSE, if
the node has an `As(any) bool` method that succeeds, the populated value
(the two checks are an if/else-if chain in the source). -/
def nodeHits (t : Tag) (err : GoErr) : List GoErr :=
  if typeTag err = t then [err]
  else
    match asMethodTry t err with
    | some v => [v]
    | none => []

mutual

/-- The collection loop `as` from src/iter.go, with the accumulator modeling
the `errs *[]T` pointer. Per node: append that node's `nodeHits`; then the
walk continues iteratively through single unwrap, recurses into each non-nil
child of an `Unwrap() []error` node, and stops at leaves (and at
`multiError`, which has no unwrap method). -/
def asAcc (t : Tag) (err : GoErr) (acc : List GoErr) : List GoErr :=
  match err with
  | .withCallStack _ c => asAcc t c (acc ++ nodeHits t err)
  | .withCSParams _ _ c => asAcc t c (acc ++ nodeHits t err)
  | .wrapped _ c => asAcc t c (acc ++ nodeHits t err)
  | .join cs => asAccList t cs (acc ++ nodeHits t err)
  | _ => acc ++ nodeHits t err

/-- The `Unwrap() []error` branch of `as`: recursive calls on each non-nil
child, in order, into the same accumulator. -/
def asAccList (t : Tag) (cs : List (Option GoErr)) (acc : List GoErr) : List GoErr :=
  match cs with
  | [] => acc
  | none :: rest => asAccList t rest acc
  | some c :: rest => asAccList t rest (asAcc t c acc)

end

/-- `As[T]` from src/iter.go: nil input yields the empty result, otherwise
the collection loop `as` starting from an empty accumulator. -/
def As (t : Tag) : Option GoErr → List GoErr
  | none => []
  | some err => asAcc t err []

/-- The results contributed by the children branches of one node in the `as`
walk (single-unwrap continuation, or the recursion into an `Unwrap() []error`
node's children; empty for nodes without unwrap capability). -/
def asChildren (t : Tag) : GoErr → List GoErr
  | .withCallStack _ c => asAcc t c []
  | .withCSParams _ _ c => asAcc t c []
  | .wrapped _ c => asAcc t c []
  | .join cs => asAccList t cs []
  | _ => []

mutual

/-- `Root` from src/iter.go: follow single unwrap to the end; at a node
exposing `Unwrap() []error`, return the root of the first non-nil branch, or
the node itself when every branch is nil; any other node is the root. -/
def Root : GoErr → GoErr
  | .withCallStack _ c => Root c
  | .withCSParams _ _ c => Root c
  | .wrapped _ c => Root c
  | .join cs =>
    match rootJoin cs with
    | some r => r
    | none => .join cs
  | .sentinel m => .sentinel m
  | .multi cs => .multi cs
  | .custom n m claims => .custom n m claims

/-- The `Unwrap() []error` branch of `Root`: the root of the first non-nil
child, if any. -/
def rootJoin : List (Option GoErr) → Option GoErr
  | [] => none
  | none :: rest => rootJoin rest
  | some c :: _ => some (Root c)

end

/-- `wrapWithFuncParamsSkip` from src/wrapwithfuncparams.go.
`capturedStack` stands for the frames `callStack(skip+1)` would capture at
this call. A bare `callStackProvider` is replaced by a
`withCallStackFuncParams` reusing its already-captured frames and child; any
other error (including one already carrying parameters, per the source's
`callStackParamsProvider` case that falls through) is wrapped as a new
`withCallStackFuncParams` with freshly captured frames. -/
def wrapWithFuncParamsSkip (capturedStack : List Nat) (err : GoErr)
    (params : List Param) : GoErr :=
  match err with
  | .withCallStack s c => .withCSParams s params c
  | e => .withCSParams capturedStack params e

/-- `WrapWithFuncParams` (src/wrapwithfuncparams.go): no-op when the result
variable holds nil, otherwise wrap it in place. -/
def WrapWithFuncParams (capturedStack : List Nat) (resultVar : Option GoErr)
    (params : List Param) : Option GoErr :=
  match resultVar with
  | none => none
  | some e => some (wrapWithFuncParamsSkip capturedStack e params)

/-- Number of call-stack wrapper layers (`callStackProvider` nodes) along the
single unwrap chain of an error. -/
def stackLayerCount : GoErr → Nat
  | .withCallStack _ c => stackLayerCount c + 1
  | .withCSParams _ _ c => stackLayerCount c + 1
  | .wrapped _ c => stackLayerCount c
  | _ => 0

/-- A call-stack wrap layer: bare, or carrying function parameters. -/
inductive StackLayer : Type where
  | bare : List Nat → StackLayer
  | withP : List Nat → List Param → StackLayer

/-- Nest a chain of call-stack wrap layers around a core error;
the head of the list is the outermost layer. -/
def buildChain : List StackLayer → GoErr → GoErr
  | [], core => core
  | .bare s :: rest, core => .withCallStack s (buildChain rest core)
  | .withP s p :: rest, core => .withCSParams s p (buildChain rest core)

/-- The call text `formatError` collects for a wrap layer. -/
def renderLayer : StackLayer → Str
  | .bare s => formatCallStack s
  | .withP s p => formatCallStackParams s p

/-- Nodes that are neither call-stack providers nor single-unwrap wrappers:
the `formatError` walk records their `Error()` text and stops there. -/
def plainShape : GoErr → Bool
  | .sentinel _ => true
  | .custom _ _ _ => true
  | .multi _ => true
  | .join _ => true
  | _ => false

theorem infix_ext {α : Type} {l₁ l₂ : List α} (pre post : List α)
    (h : l₁ <:+: l₂) : l₁ <:+: pre ++ l₂ ++ post := by
  obtain ⟨a, b, hab⟩ := h
  exact ⟨pre ++ a, b ++ post, by rw [← hab]; simp⟩

theorem infix_of_mem_joinWith (sep : Str) (l : List Str) (s : Str) (hs : s ∈ l) :
    s <:+: joinWith sep l := by
  induction l with
  | nil => cases hs
  | cons x rest ih =>
    cases rest with
    | nil =>
      rcases List.mem_cons.mp hs with h | h
      · subst h; exact ⟨[], [], by simp [joinWith]⟩
      · cases h
    | cons y tail =>
      rcases List.mem_cons.mp hs with h | h
      · subst h; exact ⟨[], sep ++ joinWith sep (y :: tail), by simp [joinWith]⟩
      · have := ih h
        have h2 : joinWith sep (x :: y :: tail) = (x ++ sep) ++ joinWith sep (y :: tail) ++ [] := by
          simp [joinWith]
        rw [h2]
        exact infix_ext (x ++ sep) [] this

mutual

theorem PrinterFprint_scrub (p : Param) :
    PrinterFprint (scrubParam p) = PrinterFprint p := by
  cases p with
  | str s => rfl
  | int n => rfl
  | secretV v => rfl
  | strct fields => simp [scrubParam, PrinterFprint, PrinterFprintList_scrub fields]

theorem PrinterFprintList_scrub (ps : List Param) :
    PrinterFprintList (scrubParamList ps) = PrinterFprintList ps := by
  cases ps with
  | nil => rfl
  | cons p rest =>
    simp [scrubParamList, PrinterFprintList, PrinterFprint_scrub p,
      PrinterFprintList_scrub rest]

end

mutual

theorem marker_infix_of_secret (p : Param) (h : containsSecret p = true) :
    redactionMarker <:+: PrinterFprint p := by
  cases p with
  | str s => simp [containsSecret] at h
  | int n => simp [containsSecret] at h
  | secretV v => exact ⟨[], [], by simp [PrinterFprint]⟩
  | strct fields =>
    have h1 : containsSecretList fields = true := h
    have h2 := marker_infix_of_secretList fields h1
    have h3 : PrinterFprint (.strct fields)
        = ['\x7b'] ++ joinWith (str ", ") (PrinterFprintList fields) ++ ['\x7d'] := by
      simp [PrinterFprint]
    rw [h3]
    exact infix_ext ['\x7b'] ['\x7d'] h2

theorem marker_infix_of_secretList (ps : List Param)
    (h : containsSecretList ps = true) :
    redactionMarker <:+: joinWith (str ", ") (PrinterFprintList ps) := by
  cases ps with
  | nil => simp [containsSecretList] at h
  | cons p rest =>
    rcases Bool.or_eq_true_iff.mp h with hp | hrest
    · have h1 := marker_infix_of_secret p hp
      have h2 : PrinterFprint p ∈ PrinterFprintList (p :: rest) := by
        simp [PrinterFprintList]
      exact h1.trans (infix_of_mem_joinWith _ _ _ h2)
    · have h1 := marker_infix_of_secretList rest hrest
      cases rest with
      | nil => simp [containsSecretList] at hrest
      | cons q tail =>
        have h2 : joinWith (str ", ") (PrinterFprintList (p :: q :: tail))
            = (PrinterFprint p ++ str ", ")
              ++ joinWith (str ", ") (PrinterFprintList (q :: tail)) ++ [] := by
          simp [PrinterFprintList, joinWith]
        rw [h2]
        exact infix_ext _ [] h1

end

/-- **C8.** For every value wrapped by `KeepSecret`, the printer renders the
fixed redaction marker and never the payload: the marker is rendered for every
payload, `FormatFunctionCall` output is unchanged when every secret payload is
replaced by a dummy (so the output never depends on, or contains, the
payload's rendering), the output contains the marker whenever some parameter
contains a secret at any nesting depth, and concretely
`FormatFunctionCall("f", KeepSecret("pw"))` is `f(***REDACTED***)`, which does
not contain the substring `pw`. -/
theorem secret_redaction :
    (∀ v : Param, PrinterFprint (KeepSecret v) = redactionMarker)
  ∧ (∀ (f : Str) (params : List Param),
       FormatFunctionCall f (scrubParamList params) = FormatFunctionCall f params)
  ∧ (∀ (f : Str) (params : List Param) (p : Param),
       p ∈ params → containsSecret p = true →
       redactionMarker <:+: FormatFunctionCall f params)
  ∧ FormatFunctionCall (str "f") [KeepSecret (.str (str "pw"))] = str "f(***REDACTED***)"
  ∧ ¬ str "pw" <:+: FormatFunctionCall (str "f") [KeepSecret (.str (str "pw"))] := by
  refine ⟨fun v => rfl, ?_, ?_, by decide, by decide⟩
  · intro f params
    simp [FormatFunctionCall, PrinterFprintList_scrub]
  · intro f params p hp hsec
    have h1 := marker_infix_of_secret p hsec
    have h2 : PrinterFprint p ∈ PrinterFprintList params := by
      induction params with
      | nil => cases hp
      | cons q rest ih =>
        rcases List.mem_cons.mp hp with h | h
        · subst h; simp [PrinterFprintList]
        · simp [PrinterFprintList]; right; exact ih h
    have h3 := h1.trans (infix_of_mem_joinWith (str ", ") _ _ h2)
    have h4 : FormatFunctionCall f params
        = (f ++ ['(']) ++ joinWith (str ", ") (PrinterFprintList params) ++ [')'] := by
      simp [FormatFunctionCall]
    rw [h4]
    exact infix_ext (f ++ ['(']) [')'] h3

/-- Witness for `secret_redaction` at concrete inputs: a secret nested inside
a struct parameter still forces the redaction marker into the output. -/
theorem secret_redaction_witness :
    (Param.strct [Param.int 3, KeepSecret (Param.str (str "key"))])
        ∈ [Param.str (str "u"), Param.strct [Param.int 3, KeepSecret (Param.str (str "key"))]]
  ∧ containsSecret (Param.strct [Param.int 3, KeepSecret (Param.str (str "key"))]) = true
  ∧ redactionMarker <:+:
      FormatFunctionCall (str "g")
        [Param.str (str "u"), Param.strct [Param.int 3, KeepSecret (Param.str (str "key"))]] :=
  ⟨by simp, by rfl,
   secret_redaction.2.2.1 (str "g")
     [Param.str (str "u"), Param.strct [Param.int 3, KeepSecret (Param.str (str "key"))]]
     (Param.strct [Param.int 3, KeepSecret (Param.str (str "key"))])
     (by simp) (by rfl)⟩

theorem combineList_cons (e : GoErr) (rest : List (Option GoErr)) :
    combineList (some e :: rest) = splice e ++ combineList rest := rfl

theorem splice_of_findMulti_none {e : GoErr} (h : findMulti e = none) :
    splice e = [e] := by
  simp [splice, h]

theorem splice_of_findMulti_some {e : GoErr} {cs : List GoErr}
    (h : findMulti e = some cs) : splice e = cs := by
  simp [splice, h]

theorem mem_combineList_flat (inputs : List (Option GoErr))
    (h : ∀ e : GoErr, some e ∈ inputs → flatFound e = true) :
    ∀ x ∈ combineList inputs, findMulti x = none := by
  induction inputs with
  | nil => intro x hx; cases hx
  | cons i rest ih =>
    intro x hx
    cases i with
    | none =>
      exact ih (fun e he => h e (List.mem_cons_of_mem _ he)) x hx
    | some e =>
      rw [combineList_cons] at hx
      rcases List.mem_append.mp hx with hx | hx
      · have hf : flatFound e = true := h e (List.mem_cons_self _ _)
        cases hm : findMulti e with
        | none =>
          rw [splice_of_findMulti_none hm] at hx
          rcases List.mem_cons.mp hx with hx | hx
          · subst hx; exact hm
          · cases hx
        | some cs =>
          rw [splice_of_findMulti_some hm] at hx
          unfold flatFound at hf
          rw [hm] at hf
          have := List.all_eq_true.mp hf x hx
          exact Option.isNone_iff_eq_none.mp this
      · exact ih (fun e1 he => h e1 (List.mem_cons_of_mem _ he)) x hx

theorem combineList_all_none (inputs : List (Option GoErr))
    (h : ∀ i ∈ inputs, i = none) : combineList inputs = [] := by
  induction inputs with
  | nil => rfl
  | cons i rest ih =>
    have hi : i = none := h i (List.mem_cons_self _ _)
    subst hi
    exact ih fun j hj => h j (List.mem_cons_of_mem _ hj)

theorem errorTextList_eq_map (cs : List GoErr) :
    errorTextList cs = cs.map errorText := by
  induction cs with
  | nil => simp [errorTextList]
  | cons e rest ih => simp [errorTextList, ih]

/-- **C3.** Boundary behavior of `Combine`: no arguments or all-nil arguments
collapse to nil; a single non-nil argument in whose unwrap tree `errors.As`
finds no multi-error is returned itself; two non-nil such arguments produce a
`multiError` whose `Error()` text is the children's texts joined by the
newline character (stated both for the two-element case and for the general
children list). The hypothesis `findMulti e = none` is forced by the
counterexample `combine_single_arg_cex`: a single argument that wraps a
multi-error is replaced by that multi-error's children. -/
theorem combine_boundary_cases :
    Combine [] = none
  ∧ Combine [none, none] = none
  ∧ (∀ inputs : List (Option GoErr), (∀ i ∈ inputs, i = none) → Combine inputs = none)
  ∧ (∀ e : GoErr, findMulti e = none → Combine [some e] = some e)
  ∧ (∀ e0 e1 : GoErr, findMulti e0 = none → findMulti e1 = none →
       Combine [some e0, some e1] = some (.multi [e0, e1])
       ∧ errorText (GoErr.multi [e0, e1]) = errorText e0 ++ '\n' :: errorText e1)
  ∧ (∀ cs : List GoErr, cs ≠ [] →
       errorText (GoErr.multi cs) = joinWith ['\n'] (cs.map errorText)) := by
  refine ⟨rfl, rfl, ?_, ?_, ?_, ?_⟩
  · intro inputs h
    unfold Combine
    rw [combineList_all_none inputs h]
  · intro e h
    unfold Combine
    rw [combineList_cons, splice_of_findMulti_none h]
    rfl
  · intro e0 e1 h0 h1
    constructor
    · unfold Combine
      rw [combineList_cons, combineList_cons, splice_of_findMulti_none h0,
        splice_of_findMulti_none h1]
      rfl
    · simp [errorText, errorTextList, joinWith]
  · intro cs _
    simp [errorText, errorTextList_eq_map]

/-- Witness for `combine_boundary_cases` at concrete leaf errors. -/
theorem combine_boundary_cases_witness :
    Combine [none, none, none] = none
  ∧ Combine [some (GoErr.sentinel (str "a"))] = some (GoErr.sentinel (str "a"))
  ∧ Combine [some (GoErr.sentinel (str "a")), some (GoErr.sentinel (str "b"))]
      = some (GoErr.multi [GoErr.sentinel (str "a"), GoErr.sentinel (str "b")])
  ∧ errorText (GoErr.multi [GoErr.sentinel (str "a"), GoErr.sentinel (str "b")])
      = errorText (GoErr.sentinel (str "a")) ++ '\n' :: errorText (GoErr.sentinel (str "b"))
  ∧ errorText (GoErr.multi [GoErr.sentinel (str "a"), GoErr.sentinel (str "b"),
        GoErr.sentinel (str "c")])
      = joinWith ['\n'] ([GoErr.sentinel (str "a"), GoErr.sentinel (str "b"),
          GoErr.sentinel (str "c")].map errorText) :=
  ⟨combine_boundary_cases.2.2.1 [none, none, none]
     (by intro i hi
         rcases List.mem_cons.mp hi with h | h
         · exact h
         · rcases List.mem_cons.mp h with h | h
           · exact h
           · rcases List.mem_cons.mp h with h | h
             · exact h
             · cases h),
   combine_boundary_cases.2.2.2.1 (GoErr.sentinel (str "a")) rfl,
   (combine_boundary_cases.2.2.2.2.1 (GoErr.sentinel (str "a")) (GoErr.sentinel (str "b"))
     rfl rfl).1,
   (combine_boundary_cases.2.2.2.2.1 (GoErr.sentinel (str "a")) (GoErr.sentinel (str "b"))
     rfl rfl).2,
   combine_boundary_cases.2.2.2.2.2 [GoErr.sentinel (str "a"), GoErr.sentinel (str "b"),
       GoErr.sentinel (str "c")]
     (by intro h; cases h)⟩

/-- **C3 counterexample.** `Combine` with exactly one non-nil argument does
NOT always return that argument itself: for an argument that is a call-stack
wrapper around a `multiError`, `errors.As` finds the inner multi-error and
`Combine` returns a `multiError` of its children, dropping the wrapper. -/
theorem combine_single_arg_cex :
    Combine [some (GoErr.withCallStack [3]
        (.multi [.sentinel (str "a"), .sentinel (str "b")]))]
      = some (GoErr.multi [.sentinel (str "a"), .sentinel (str "b")])
  ∧ GoErr.multi [.sentinel (str "a"), .sentinel (str "b")]
      ≠ GoErr.withCallStack [3] (.multi [.sentinel (str "a"), .sentinel (str "b")]) :=
  ⟨rfl, fun h => GoErr.noConfusion h⟩

/-- **C4.** What `Combine` actually builds: the child list is the
concatenation, over the non-nil inputs in order, of the input's splice — the
children of the multi-error `errors.As` finds in the input, else the input
itself as a singleton. Given inputs whose found multi-errors have flat
children (true of every `Combine`-built multi-error, since `multiError` is
unexported), nested combination flattens:
`Combine(e0, Combine(e1,e2)) = Combine(e0,e1,e2)`. -/
theorem combine_splice_characterization :
    (∀ inputs : List (Option GoErr),
       combineList inputs = ((inputs.filterMap id).map splice).flatten)
  ∧ (∀ e0 e1 e2 : GoErr, flatFound e1 = true → flatFound e2 = true →
       Combine [some e0, Combine [some e1, some e2]]
         = Combine [some e0, some e1, some e2]) := by
  constructor
  · intro inputs
    induction inputs with
    | nil => rfl
    | cons i rest ih =>
      cases i with
      | none => simpa [combineList] using ih
      | some e => simp [combineList_cons, ih]
  · intro e0 e1 e2 h1 h2
    have hmem := mem_combineList_flat [some e1, some e2]
      (by intro e he
          rcases List.mem_cons.mp he with h | h
          · injection h with h; subst h; exact h1
          · rcases List.mem_cons.mp h with h | h
            · injection h with h; subst h; exact h2
            · cases h)
    have hcongr : ∀ a b : List (Option GoErr),
        combineList a = combineList b → Combine a = Combine b := by
      intro a b hab
      unfold Combine
      rw [hab]
    apply hcongr
    have hlist : combineList [some e1, some e2] = splice e1 ++ splice e2 := by
      simp [combineList]
    cases hM : combineList [some e1, some e2] with
    | nil =>
      have hC : Combine [some e1, some e2] = none := by unfold Combine; rw [hM]
      have h0 : splice e1 ++ splice e2 = [] := hlist.symm.trans hM
      rw [hC]
      simp [combineList, ← h0]
    | cons x tail =>
      cases tail with
      | nil =>
        have hC : Combine [some e1, some e2] = some x := by unfold Combine; rw [hM]
        have hx : findMulti x = none := hmem x (by rw [hM]; exact List.mem_cons_self _ _)
        have h0 : splice e1 ++ splice e2 = [x] := hlist.symm.trans hM
        rw [hC]
        simp [combineList, splice_of_findMulti_none hx, ← h0]
      | cons y rest =>
        have hC : Combine [some e1, some e2] = some (.multi (x :: y :: rest)) := by
          unfold Combine; rw [hM]
        have hs : ∀ l : List GoErr, splice (GoErr.multi l) = l := by
          intro l
          simp [splice, findMulti]
        have h0 : splice e1 ++ splice e2 = x :: y :: rest := hlist.symm.trans hM
        rw [hC]
        simp [combineList, hs, ← h0]

/-- Witness for `combine_splice_characterization` at concrete leaf errors. -/
theorem combine_splice_characterization_witness :
    Combine [some (GoErr.sentinel (str "a")),
        Combine [some (GoErr.sentinel (str "b")), some (GoErr.sentinel (str "c"))]]
      = Combine [some (GoErr.sentinel (str "a")), some (GoErr.sentinel (str "b")),
          some (GoErr.sentinel (str "c"))] :=
  combine_splice_characterization.2 (GoErr.sentinel (str "a")) (GoErr.sentinel (str "b"))
    (GoErr.sentinel (str "c")) rfl rfl

/-- **C4 counterexample.** An input that is not itself a multi-error node does
NOT always appear unchanged as one child: a call-stack wrapper around a
`multiError` is replaced by the inner multi-error's children (spliced), so the
child list is `[a, b, c]` rather than `[a, wrapper]`. -/
theorem combine_splice_cex :
    Combine [some (GoErr.sentinel (str "a")),
        some (GoErr.withCallStack [5] (.multi [.sentinel (str "b"), .sentinel (str "c")]))]
      = some (GoErr.multi [.sentinel (str "a"), .sentinel (str "b"), .sentinel (str "c")])
  ∧ GoErr.multi [.sentinel (str "a"), .sentinel (str "b"), .sentinel (str "c")]
      ≠ GoErr.multi [.sentinel (str "a"),
          .withCallStack [5] (.multi [.sentinel (str "b"), .sentinel (str "c")])] :=
  ⟨rfl, by intro h; injection h with h; injection h with h1 h2; injection h2 with h2; exact GoErr.noConfusion h2⟩

/-- **C5.** `Uncombine`: nil yields nil (the empty list); a multi-error node
yields its child list; a non-nil error in whose unwrap tree `errors.As` finds
no multi-error yields the singleton list of that error; an error in whose
tree it finds one yields the found children (this last case is what the
counterexample `uncombine_wrapped_multi_cex` forces the claim to include);
consequently `Uncombine(Combine(e0,e1,e2))` is `[e0,e1,e2]` in order for
inputs containing no multi-error. -/
theorem uncombine_spec :
    Uncombine none = []
  ∧ (∀ cs : List GoErr, Uncombine (some (.multi cs)) = cs)
  ∧ (∀ e : GoErr, findMulti e = none → Uncombine (some e) = [e])
  ∧ (∀ (e : GoErr) (cs : List GoErr), findMulti e = some cs → Uncombine (some e) = cs)
  ∧ (∀ e0 e1 e2 : GoErr,
       findMulti e0 = none → findMulti e1 = none → findMulti e2 = none →
       Uncombine (Combine [some e0, some e1, some e2]) = [e0, e1, e2]) := by
  refine ⟨rfl, ?_, ?_, ?_, ?_⟩
  · intro cs
    simp [Uncombine, findMulti]
  · intro e h
    simp [Uncombine, h]
  · intro e cs h
    simp [Uncombine, h]
  · intro e0 e1 e2 h0 h1 h2
    have hc : Combine [some e0, some e1, some e2] = some (.multi [e0, e1, e2]) := by
      unfold Combine
      simp [combineList, splice_of_findMulti_none h0, splice_of_findMulti_none h1,
        splice_of_findMulti_none h2]
    rw [hc]
    simp [Uncombine, findMulti]

/-- Witness for `uncombine_spec` at concrete leaf errors. -/
theorem uncombine_spec_witness :
    Uncombine (some (GoErr.sentinel (str "a"))) = [GoErr.sentinel (str "a")]
  ∧ Uncombine (some (GoErr.wrapped (str "ctx: ")
        (.multi [GoErr.sentinel (str "a"), GoErr.sentinel (str "b")])))
      = [GoErr.sentinel (str "a"), GoErr.sentinel (str "b")]
  ∧ Uncombine (Combine [some (GoErr.sentinel (str "a")), some (GoErr.sentinel (str "b")),
        some (GoErr.sentinel (str "c"))])
      = [GoErr.sentinel (str "a"), GoErr.sentinel (str "b"), GoErr.sentinel (str "c")] :=
  ⟨uncombine_spec.2.2.1 (GoErr.sentinel (str "a")) rfl,
   uncombine_spec.2.2.2.1 (GoErr.wrapped (str "ctx: ")
       (.multi [GoErr.sentinel (str "a"), GoErr.sentinel (str "b")]))
     [GoErr.sentinel (str "a"), GoErr.sentinel (str "b")]
     (by simp [findMulti]),
   uncombine_spec.2.2.2.2 (GoErr.sentinel (str "a")) (GoErr.sentinel (str "b"))
     (GoErr.sentinel (str "c")) rfl rfl rfl⟩

/-- **C5 counterexample.** `Uncombine` of a non-nil, non-multi-error value is
NOT always the singleton list containing that value: for a call-stack wrapper
around a `multiError`, `errors.As` finds the inner multi-error and its
children are returned instead of the wrapper. -/
theorem uncombine_wrapped_multi_cex :
    Uncombine (some (GoErr.withCallStack [5]
        (.multi [.sentinel (str "a"), .sentinel (str "b")])))
      = [GoErr.sentinel (str "a"), GoErr.sentinel (str "b")]
  ∧ [GoErr.sentinel (str "a"), GoErr.sentinel (str "b")]
      ≠ [GoErr.withCallStack [5] (.multi [.sentinel (str "a"), .sentinel (str "b")])] := by
  constructor
  · simp [Uncombine, findMulti, findMultiList]
  · intro h
    injection h with h1 h2
    exact GoErr.noConfusion h1

/-- **C10.** Every `multiError` returned by `Combine` has at least two
children, provided every multi-error already inside the inputs is itself
`Combine`-built (its children contain no further multi-error — the
`multiError` type is unexported, so `Combine` is its only constructor):
the two-or-more branch of the collapse returns lists of length at least two,
and the single-element branch can never return a multi-error node. -/
theorem combine_multi_min_two :
    ∀ inputs : List (Option GoErr),
      (∀ e : GoErr, some e ∈ inputs → flatFound e = true) →
      ∀ cs : List GoErr, Combine inputs = some (.multi cs) → 2 ≤ cs.length := by
  intro inputs h cs hc
  cases hM : combineList inputs with
  | nil =>
    unfold Combine at hc
    rw [hM] at hc
    cases hc
  | cons x tail =>
    cases tail with
    | nil =>
      unfold Combine at hc
      rw [hM] at hc
      injection hc with hc
      have hx : findMulti x = none :=
        mem_combineList_flat inputs h x (by rw [hM]; exact List.mem_cons_self _ _)
      rw [hc] at hx
      simp [findMulti] at hx
    | cons y rest =>
      unfold Combine at hc
      rw [hM] at hc
      injection hc with hc
      injection hc with hc
      rw [← hc]
      simp

/-- Witness for `combine_multi_min_two` at concrete leaf errors. -/
theorem combine_multi_min_two_witness :
    2 ≤ ([GoErr.sentinel (str "a"), GoErr.sentinel (str "b")] : List GoErr).length :=
  combine_multi_min_two [some (GoErr.sentinel (str "a")), some (GoErr.sentinel (str "b"))]
    (by intro e he
        rcases List.mem_cons.mp he with h | h
        · injection h with h; subst h; rfl
        · rcases List.mem_cons.mp h with h | h
          · injection h with h; subst h; rfl
          · cases h)
    [GoErr.sentinel (str "a"), GoErr.sentinel (str "b")]
    (by unfold Combine; simp [combineList, splice, findMulti])

theorem rootJoin_skip_none (pre : List (Option GoErr)) (c : GoErr)
    (rest : List (Option GoErr)) (h : ∀ x ∈ pre, x = none) :
    rootJoin (pre ++ some c :: rest) = some (Root c) := by
  induction pre with
  | nil => simp [rootJoin]
  | cons p ps ih =>
    have hp : p = none := h p (List.mem_cons_self _ _)
    subst hp
    simp only [List.cons_append, rootJoin]
    exact ih fun x hx => h x (List.mem_cons_of_mem _ hx)

/-- **C6.** `Root`'s actual traversal: it strips single-child wrap layers
(a doubly wrapped leaf yields the leaf); a `multiError` node — which exposes
neither `Unwrap() error` nor `Unwrap() []error` — is returned unchanged, so
`Root(Combine(e0,e1))` is the combined error itself; but a node exposing
`Unwrap() []error` is NOT opaque: `Root` descends into its first non-nil
branch (the part the counterexample `root_join_descends_cex` forces). -/
theorem root_traversal :
    (∀ (s1 s2 : List Nat) (m : Str),
       Root (.withCallStack s1 (.withCallStack s2 (.sentinel m))) = .sentinel m)
  ∧ (∀ cs : List GoErr, Root (.multi cs) = .multi cs)
  ∧ (∀ e0 e1 : GoErr, findMulti e0 = none → findMulti e1 = none →
       Combine [some e0, some e1] = some (.multi [e0, e1])
       ∧ Root (.multi [e0, e1]) = .multi [e0, e1])
  ∧ (∀ (pre : List (Option GoErr)) (c : GoErr) (rest : List (Option GoErr)),
       (∀ x ∈ pre, x = none) →
       Root (.join (pre ++ some c :: rest)) = Root c) := by
  refine ⟨?_, ?_, ?_, ?_⟩
  · intro s1 s2 m
    simp [Root]
  · intro cs
    simp [Root]
  · intro e0 e1 h0 h1
    constructor
    · unfold Combine
      simp [combineList, splice_of_findMulti_none h0, splice_of_findMulti_none h1]
    · simp [Root]
  · intro pre c rest h
    simp [Root, rootJoin_skip_none pre c rest h]

/-- Witness for `root_traversal` at concrete inputs. -/
theorem root_traversal_witness :
    (Combine [some (GoErr.sentinel (str "a")), some (GoErr.sentinel (str "b"))]
       = some (GoErr.multi [GoErr.sentinel (str "a"), GoErr.sentinel (str "b")])
     ∧ Root (GoErr.multi [GoErr.sentinel (str "a"), GoErr.sentinel (str "b")])
       = GoErr.multi [GoErr.sentinel (str "a"), GoErr.sentinel (str "b")])
  ∧ Root (GoErr.join ([none] ++ some (GoErr.sentinel (str "c")) :: []))
      = Root (GoErr.sentinel (str "c")) :=
  ⟨root_traversal.2.2.1 (GoErr.sentinel (str "a")) (GoErr.sentinel (str "b")) rfl rfl,
   root_traversal.2.2.2 [none] (GoErr.sentinel (str "c")) []
     (by intro x hx
         rcases List.mem_cons.mp hx with h | h
         · exact h
         · cases h)⟩

/-- **C6 counterexample.** `Root` does NOT treat every multi-child node as
structurally opaque: on a node exposing `Unwrap() []error` it returns the
root of the first non-nil branch instead of the node itself. -/
theorem root_join_descends_cex :
    Root (GoErr.join [none, some (.sentinel (str "a"))]) = GoErr.sentinel (str "a")
  ∧ GoErr.sentinel (str "a") ≠ GoErr.join [none, some (.sentinel (str "a"))] := by
  constructor
  · simp [Root, rootJoin]
  · intro h
    exact GoErr.noConfusion h

/-- **C7.** Attaching parameters to an error whose top layer is a bare
call-stack wrapper replaces that layer by a single stack-plus-parameters
layer that reuses the already-captured frame list — the result does not
depend on `capturedStack`, the freshly capturable frames — preserves the
wrapped child, adds no stack layer (same count as the input), and yields
exactly one stack layer when the child contains none. -/
theorem wrap_params_reuse :
    (∀ (capturedStack s : List Nat) (c : GoErr) (p : List Param),
       wrapWithFuncParamsSkip capturedStack (.withCallStack s c) p = .withCSParams s p c)
  ∧ (∀ (capturedStack s : List Nat) (c : GoErr) (p : List Param),
       stackLayerCount (wrapWithFuncParamsSkip capturedStack (.withCallStack s c) p)
         = stackLayerCount (.withCallStack s c))
  ∧ (∀ (capturedStack s : List Nat) (c : GoErr) (p : List Param),
       stackLayerCount c = 0 →
       stackLayerCount (wrapWithFuncParamsSkip capturedStack (.withCallStack s c) p) = 1) := by
  refine ⟨fun _ _ _ _ => rfl, fun _ _ _ _ => rfl, ?_⟩
  intro capturedStack s c p h
  simp [wrapWithFuncParamsSkip, stackLayerCount, h]

/-- Witness for `wrap_params_reuse` at concrete inputs. -/
theorem wrap_params_reuse_witness :
    stackLayerCount (GoErr.sentinel (str "x")) = 0
  ∧ stackLayerCount (wrapWithFuncParamsSkip [9]
      (.withCallStack [1] (.sentinel (str "x"))) [Param.int 1]) = 1 :=
  ⟨rfl, wrap_params_reuse.2.2 [9] [1] (GoErr.sentinel (str "x")) [Param.int 1] rfl⟩

/-- **C7 counterexample.** The result does NOT always contain exactly one
stack layer: when the error beneath the replaced bare layer itself carries a
call-stack wrapper, the replacement keeps it, and the result has two stack
layers. -/
theorem wrap_params_two_layers_cex :
    wrapWithFuncParamsSkip [9]
        (.withCallStack [1] (.withCallStack [2] (.sentinel (str "x")))) [Param.int 1]
      = .withCSParams [1] [Param.int 1] (.withCallStack [2] (.sentinel (str "x")))
  ∧ stackLayerCount (wrapWithFuncParamsSkip [9]
        (.withCallStack [1] (.withCallStack [2] (.sentinel (str "x")))) [Param.int 1]) ≠ 1 :=
  ⟨rfl, by decide⟩

mutual

theorem asAcc_append (t : Tag) (err : GoErr) (acc : List GoErr) :
    asAcc t err acc = acc ++ asAcc t err [] := by
  cases err with
  | withCallStack s c =>
    simp only [asAcc]
    rw [asAcc_append t c (acc ++ nodeHits t (.withCallStack s c)),
      asAcc_append t c ([] ++ nodeHits t (.withCallStack s c))]
    simp
  | withCSParams s p c =>
    simp only [asAcc]
    rw [asAcc_append t c (acc ++ nodeHits t (.withCSParams s p c)),
      asAcc_append t c ([] ++ nodeHits t (.withCSParams s p c))]
    simp
  | wrapped pre c =>
    simp only [asAcc]
    rw [asAcc_append t c (acc ++ nodeHits t (.wrapped pre c)),
      asAcc_append t c ([] ++ nodeHits t (.wrapped pre c))]
    simp
  | join cs =>
    simp only [asAcc]
    rw [asAccList_append t cs (acc ++ nodeHits t (.join cs)),
      asAccList_append t cs ([] ++ nodeHits t (.join cs))]
    simp
  | sentinel m => simp [asAcc]
  | multi cs => simp [asAcc]
  | custom n m claims => simp [asAcc]

theorem asAccList_append (t : Tag) (cs : List (Option GoErr)) (acc : List GoErr) :
    asAccList t cs acc = acc ++ asAccList t cs [] := by
  cases cs with
  | nil => simp [asAccList]
  | cons c rest =>
    cases c with
    | none =>
      simp only [asAccList]
      exact asAccList_append t rest acc
    | some e =>
      simp only [asAccList]
      rw [asAccList_append t rest (asAcc t e acc), asAccList_append t rest (asAcc t e []),
        asAcc_append t e acc]
      simp

end

/-- **C1.** The per-node behavior of the `as` collection loop: at every node
of the walk, the collected elements are the accumulator so far, then the
node's own contribution, then the children's contribution — and the node's
own contribution is EITHER the node itself when the type assertion holds
(the `As(any) bool` matcher is then not consulted), OR else the value
populated by a successful matcher call; at most one element per node, the
checks being an if/else-if chain rather than independent. -/
theorem as_structural_priority :
    ∀ (t : Tag) (err : GoErr) (acc : List GoErr),
      asAcc t err acc
        = acc ++ (if typeTag err = t then [err] else (asMethodTry t err).toList)
          ++ asChildren t err := by
  intro t err acc
  have hhits : nodeHits t err
      = if typeTag err = t then [err] else (asMethodTry t err).toList := by
    unfold nodeHits
    by_cases h : typeTag err = t
    · simp [h]
    · simp [h]
      cases asMethodTry t err <;> simp
  rw [← hhits]
  cases err with
  | withCallStack s c =>
    simp only [asAcc, asChildren]
    rw [asAcc_append t c]
  | withCSParams s p c =>
    simp only [asAcc, asChildren]
    rw [asAcc_append t c]
  | wrapped pre c =>
    simp only [asAcc, asChildren]
    rw [asAcc_append t c]
  | join cs =>
    simp only [asAcc, asChildren]
    rw [asAccList_append t cs]
  | sentinel m => simp [asAcc, asChildren]
  | multi cs => simp [asAcc, asChildren]
  | custom n m claims => simp [asAcc, asChildren]

/-- **C1 counterexample.** A node whose type is exactly the requested type
AND whose `As(any) bool` matcher would also succeed is collected once, not
twice: the structural branch fires and the matcher branch is skipped, so the
result is `[n]`, not `[n, populated]` as the claim's independent-append
reading requires. -/
theorem as_independent_append_cex :
    typeTag (GoErr.custom 7 (str "boom") [7]) = Tag.customT 7
  ∧ asMethodTry (Tag.customT 7) (GoErr.custom 7 (str "boom") [7])
      = some (populate (Tag.customT 7))
  ∧ As (Tag.customT 7) (some (GoErr.custom 7 (str "boom") [7]))
      = [GoErr.custom 7 (str "boom") [7]]
  ∧ As (Tag.customT 7) (some (GoErr.custom 7 (str "boom") [7]))
      ≠ [GoErr.custom 7 (str "boom") [7], populate (Tag.customT 7)] := by
  refine ⟨rfl, ?_, ?_, ?_⟩
  · simp [asMethodTry]
  · simp [As, asAcc, nodeHits, typeTag]
  · simp [As, asAcc, nodeHits, typeTag]

theorem fmtWalk_chain (layers : List StackLayer) (core : GoErr)
    (h : plainShape core = true) :
    ∀ (calls : List Str) (first : Option Str),
      fmtWalk (buildChain layers core) calls first
        = assemble (keepFirst first (errorText core)) (calls ++ layers.map renderLayer) := by
  induction layers with
  | nil =>
    intro calls first
    cases core with
    | sentinel m => rw [show buildChain [] (GoErr.sentinel m) = GoErr.sentinel m from rfl,
        fmtWalk.eq_def]; simp
    | custom n m cl => rw [show buildChain [] (GoErr.custom n m cl) = GoErr.custom n m cl from rfl,
        fmtWalk.eq_def]; simp
    | multi cs => rw [show buildChain [] (GoErr.multi cs) = GoErr.multi cs from rfl,
        fmtWalk.eq_def]; simp
    | join cs => rw [show buildChain [] (GoErr.join cs) = GoErr.join cs from rfl,
        fmtWalk.eq_def]; simp
    | withCallStack s c => simp [plainShape] at h
    | withCSParams s p c => simp [plainShape] at h
    | wrapped pre c => simp [plainShape] at h
  | cons l rest ih =>
    intro calls first
    cases l with
    | bare s =>
      simp only [buildChain, fmtWalk]
      rw [ih]
      simp [renderLayer]
    | withP s p =>
      simp only [buildChain, fmtWalk]
      rw [ih]
      simp [renderLayer]

/-- **C9.** The output ordering of `formatError`: for any chain of call-stack
wrap layers (bare or with parameters, the head of `layers` outermost) around
a core error that is neither a call-stack provider nor a single-unwrap
wrapper, the rendered text is the core's message first, then the call texts
of the layers in reverse collection order — from the innermost wrap outward —
each terminated by a newline. -/
theorem formatError_order :
    ∀ (layers : List StackLayer) (core : GoErr), plainShape core = true →
      formatError (buildChain layers core)
        = errorText core ++ '\n' :: lineJoin ((layers.map renderLayer).reverse) := by
  intro layers core h
  unfold formatError
  rw [fmtWalk_chain layers core h [] none]
  simp [assemble, keepFirst]

/-- Witness for `formatError_order`: a two-layer chain around a leaf. -/
theorem formatError_order_witness :
    formatError (buildChain [StackLayer.bare [2], StackLayer.withP [3] [Param.int 7]]
        (GoErr.sentinel (str "boom")))
      = errorText (GoErr.sentinel (str "boom"))
        ++ '\n' :: lineJoin (([StackLayer.bare [2], StackLayer.withP [3] [Param.int 7]].map
            renderLayer).reverse) :=
  formatError_order [StackLayer.bare [2], StackLayer.withP [3] [Param.int 7]]
    (GoErr.sentinel (str "boom")) rfl

/-- **C2 (code bug).** `FormatFunctionCall` performs no truncation at all:
for a parameter whose rendering is 5003 characters (beyond
`FormatParamMaxLen = 5000`), the output embeds the full rendering unchanged
and the documented truncation marker `…(TRUNCATED)` does not occur in it —
`FormatParamMaxLen` (src/config.go) is read by no code in the repository,
contradicting its own documentation and the specification. -/
theorem formatParamMaxLen_unused_bug :
    FormatParamMaxLen < (PrinterFprint (Param.str (List.replicate 5001 'a'))).length
  ∧ FormatFunctionCall (str "f") [Param.str (List.replicate 5001 'a')]
      = str "f" ++ '(' :: (PrinterFprint (Param.str (List.replicate 5001 'a')) ++ [')'])
  ∧ ¬ truncMarker <:+: FormatFunctionCall (str "f") [Param.str (List.replicate 5001 'a')] := by
  have hp : ∀ l : Str, PrinterFprint (Param.str l) = '"' :: (l ++ ['"']) := by
    intro l
    simp [PrinterFprint]
  have hout : ∀ l : Str, FormatFunctionCall (str "f") [Param.str l]
      = str "f" ++ '(' :: (('"' :: (l ++ ['"'])) ++ [')']) := by
    intro l
    simp [FormatFunctionCall, PrinterFprintList, hp, joinWith]
  refine ⟨?_, ?_, ?_⟩
  · rw [hp, List.length_cons, List.length_append, List.length_replicate]
    norm_num [FormatParamMaxLen]
  · rw [hout, hp]
  · intro hinf
    have hmem : ('T' : Char) ∈ FormatFunctionCall (str "f") [Param.str (List.replicate 5001 'a')] :=
      hinf.subset (by decide)
    rw [hout (List.replicate 5001 'a')] at hmem
    rcases List.mem_append.mp hmem with hm | hm
    · exact absurd hm (by decide)
    · rcases List.mem_cons.mp hm with hm | hm
      · exact absurd hm (by decide)
      · rcases List.mem_cons.mp hm with hm | hm
        · exact absurd hm (by decide)
        · rcases List.mem_append.mp hm with hm | hm
          · rcases List.mem_append.mp hm with hm | hm
            · exact absurd (List.eq_of_mem_replicate hm) (by decide)
            · exact absurd hm (by decide)
          · exact absurd hm (by decide)

end GoErrs
